import Mathlib

/-!
Verification of the Terraform module analysis pipeline
(`src/gcp_terraform_mcp_server/handlers/terraform_registry_handlers.py`,
function `analyze_module` and its inline regex-based extraction).

The Python code is embedded shallowly:

* `pySplit` models Python `str.split("/")` (single-character separator).
* A tiny deterministic backtracking matcher (`matchSeq`, `findAllAux`,
  `searchAux`) models the three regular expressions used in the source:
  block extraction (findall), description extraction (search) and
  line-attribute extraction (search).  All regexes in the source are
  sequences of literals and greedy one-or-more character classes, so this
  matcher with greedy-first backtracking on each class run reproduces
  Python `re` semantics for them exactly.
* `analyze_module` is a pure function of the module identifier and an
  `Env` describing the external world (registry HTTP responses, the
  subprocess result, and the scratch filesystem after materialization).
-/

namespace TFReg

/-- ASCII whitespace recognized by Python regex class backslash-s and by
`str.strip` (all inputs in this development are ASCII). -/
def isPySpace (c : Char) : Bool :=
  c = ' ' || c = '\t' || c = '\n' || c = '\x0d' || c = '\x0b' || c = '\x0c'

/-- Python `str.split(sep)` for a one-character separator:
`"".split("/") = [""]`, `"a//b".split("/") = ["a","","b"]`. -/
def pySplit (sep : Char) : List Char → List (List Char)
  | [] => [[]]
  | c :: rest =>
    let r := pySplit sep rest
    if c = sep then [] :: r
    else
      match r with
      | h :: t => (c :: h) :: t
      | [] => [[c]]

/-- `module_id.split("/")` from the source, as a list of strings. -/
def pySplitStr (s : String) : List String :=
  (pySplit '/' s.data).map String.mk

/-- Python `str.strip()`: drop trailing then leading whitespace. -/
def pyStrip (l : List Char) : List Char :=
  ((l.reverse.dropWhile isPySpace).reverse).dropWhile isPySpace

/-- Python `sep.join(xs)`. -/
def pyJoin (sep : String) : List String → String
  | [] => ""
  | [x] => x
  | x :: y :: rest => x ++ sep ++ pyJoin sep (y :: rest)

/-- `containsSub h n = true` iff `n` occurs as a contiguous run inside `h`. -/
def containsSub : List Char → List Char → Bool
  | [], n => n.isEmpty
  | c :: t, n => n.isPrefixOf (c :: t) || containsSub t n

/-- Substring test on strings (Python `needle in hay`). -/
def strContains (hay needle : String) : Bool :=
  containsSub hay.data needle.data

/-- One item of a regex used by the source: a literal, or a greedy
one-or-more character class (with a flag telling whether it is a
capturing group).  Every regex in the source is a sequence of these. -/
inductive RItem where
  | lit : List Char → RItem
  | plus : (Char → Bool) → Bool → RItem

/-- Greedy-first backtracking over the length taken by a one-or-more
class run: try `k, k-1, ..., 1` characters and keep the first length for
which the continuation succeeds. -/
def tryPlus (cont : List Char → Option (List (List Char) × List Char))
    (cap : Bool) (s : List Char) : Nat → Option (List (List Char) × List Char)
  | 0 => none
  | k + 1 =>
    match cont (s.drop (k + 1)) with
    | some (caps, rest) =>
      some ((if cap then [s.take (k + 1)] else []) ++ caps, rest)
    | none => tryPlus cont cap s k

/-- Match a regex (sequence of items) at the start of `s`, returning the
captured groups and the remaining input.  Python `re` semantics: greedy
classes with backtracking. -/
def matchSeq : List RItem → List Char → Option (List (List Char) × List Char)
  | [], s => some ([], s)
  | .lit p :: items, s =>
    if p.isPrefixOf s then matchSeq items (s.drop p.length) else none
  | .plus cls cap :: items, s =>
    tryPlus (matchSeq items) cap s (s.takeWhile cls).length

/-- Python `re.findall`: scan left to right, at each position try to
match; on success continue after the match (non-overlapping), otherwise
advance one character.  `fuel` bounds the recursion (callers pass
`s.length`, which suffices since every match of the source's patterns
consumes at least one character). -/
def findAllAux (items : List RItem) : Nat → List Char → List (List (List Char))
  | 0, _ => []
  | _ + 1, [] => []
  | fuel + 1, c :: rest =>
    match matchSeq items (c :: rest) with
    | some (caps, rem) =>
      if rem.length < (c :: rest).length then caps :: findAllAux items fuel rem
      else caps :: findAllAux items fuel rest
    | none => findAllAux items fuel rest

/-- Python `re.findall` over a character list. -/
def findAll (items : List RItem) (s : List Char) : List (List (List Char)) :=
  findAllAux items s.length s

/-- Python `re.search`: captures of the leftmost match. -/
def searchAux (items : List RItem) : Nat → List Char → Option (List (List Char))
  | 0, _ => none
  | _ + 1, [] =>
    match matchSeq items [] with
    | some (caps, _) => some caps
    | none => none
  | fuel + 1, c :: rest =>
    match matchSeq items (c :: rest) with
    | some (caps, _) => some caps
    | none => searchAux items fuel rest

/-- Python `re.search` over a character list. -/
def reSearch (items : List RItem) (s : List Char) : Option (List (List Char)) :=
  searchAux items (s.length + 1) s

/-- The block regex of the source (lines 205 and 233), parameterized by
the keyword: `keyword\s+"([^"]+)"\s+\x7b([^\x7d]+)\x7d` (DOTALL changes
nothing since the pattern has no dot). -/
def blockRegex (keyword : String) : List RItem :=
  [.lit keyword.data, .plus isPySpace false, .lit ['"'],
   .plus (fun c => c != '"') true, .lit ['"'], .plus isPySpace false,
   .lit ['{'], .plus (fun c => c != '}') true, .lit ['}']]

/-- `re.findall` of the block regex: all `(name, body)` pairs, in source
order (spec name `extract_blocks`). -/
def extract_blocks (source keyword : String) : List (String × String) :=
  (findAll (blockRegex keyword) source.data).filterMap fun caps =>
    match caps with
    | [n, b] => some (String.mk n, String.mk b)
    | _ => none

/-- The description regex of the source (lines 211 and 239):
`description\s+=\s+"([^"]+)"`. -/
def descRegex : List RItem :=
  [.lit "description".data, .plus isPySpace false, .lit ['='],
   .plus isPySpace false, .lit ['"'], .plus (fun c => c != '"') true, .lit ['"']]

/-- The line-attribute regex of the source (lines 216, 221, 244),
parameterized by the attribute: `attr\s+=\s+([^\n]+)`. -/
def lineRegex (attr : String) : List RItem :=
  [.lit attr.data, .plus isPySpace false, .lit ['='],
   .plus isPySpace false, .plus (fun c => c != '\n') true]

/-- The source's per-attribute `re.search`: the quoted-literal pattern for
`description` (group used verbatim), the rest-of-line pattern followed by
`.strip()` for the other attributes (spec name `extract_attribute`). -/
def extract_attribute (body attr : String) : Option String :=
  if attr = "description" then
    match reSearch descRegex body.data with
    | some [v] => some (String.mk v)
    | _ => none
  else
    match reSearch (lineRegex attr) body.data with
    | some [v] => some (String.mk (pyStrip v))
    | _ => none

/-- One entry of `module_data["inputs"]`: the dict built per variable
block (name always present, the other keys only when their regex hit). -/
structure VariableDescriptor where
  name : String
  description : Option String
  type : Option String
  default : Option String
  deriving DecidableEq

/-- One entry of `module_data["outputs"]`. -/
structure OutputDescriptor where
  name : String
  description : Option String
  value : Option String
  deriving DecidableEq

/-- The `module_data` dict of the source (line 192): `resources` is
created as an empty list and never written again. -/
structure ModuleData where
  inputs : List VariableDescriptor
  outputs : List OutputDescriptor
  resources : List String
  readme : String
  deriving DecidableEq

/-- The dict built for one variable block (source lines 207-225). -/
def mkVariable (name body : String) : VariableDescriptor :=
  { name := name
    description := extract_attribute body "description"
    type := extract_attribute body "type"
    default := extract_attribute body "default" }

/-- The dict built for one output block (source lines 235-248). -/
def mkOutput (name body : String) : OutputDescriptor :=
  { name := name
    description := extract_attribute body "description"
    value := extract_attribute body "value" }

/-- The registry details response: HTTP status, raw body text, and the
optional `version` field of the parsed JSON body. -/
structure RegistryResponse where
  status_code : Nat
  text : String
  versionField : Option String
  deriving DecidableEq

/-- The `subprocess.run(["terraform", "init", ...])` result. -/
structure FetchResult where
  returncode : Int
  stderr : String
  deriving DecidableEq

/-- External world of one `analyze_module` call: registry responses by
URL, the subprocess result, and the scratch filesystem left by the
dependency-materialization step (existence of the conventional module
directory, the entries of `.terraform/modules`, and file contents by
directory entry and file name, `none` when the file does not exist). -/
structure Env where
  registry : String → RegistryResponse
  fetch : FetchResult
  conventionalExists : Bool
  moduleEntries : List String
  fileContents : String → String → Option String

/-- `MCPResponse`: `content` plus the metadata keys the handler sets. -/
structure MCPResponse where
  content : String
  success : Bool
  error : Option String
  module_id : Option String
  version : Option String
  module_data : Option ModuleData
  deriving DecidableEq

/-- The handler's observable outcome: the returned response, whether the
materialization subprocess was invoked, and which registry URL was
requested (`none` when the identifier was rejected before the lookup). -/
structure AnalyzeOutcome where
  response : MCPResponse
  ranSubprocess : Bool
  requestedUrl : Option String
  deriving DecidableEq

/-- The registry details URL built at source line 135. -/
def detailsUrl (ns nm pv : String) : String :=
  "https://registry.terraform.io/v1/modules/" ++ ns ++ "/" ++ nm ++ "/" ++ pv

/-- Module directory resolution (source lines 182-190): the conventional
path if it exists, otherwise the first entry of `.terraform/modules`
whose name starts with `analyzed_module`; when neither strategy hits,
`module_dir` keeps pointing at the (absent) conventional path. -/
def resolvedDir (env : Env) : String :=
  if env.conventionalExists then "analyzed_module"
  else
    match env.moduleEntries.find? (fun d => "analyzed_module".data.isPrefixOf d.data) with
    | some d => d
    | none => "analyzed_module"

/-- `module_data` construction (source lines 192-254): each of the three
file reads is independently optional; a missing file contributes an empty
field. -/
def analysisModuleData (env : Env) : ModuleData :=
  { inputs :=
      match env.fileContents (resolvedDir env) "variables.tf" with
      | some content => (extract_blocks content "variable").map fun p => mkVariable p.1 p.2
      | none => []
    outputs :=
      match env.fileContents (resolvedDir env) "outputs.tf" with
      | some content => (extract_blocks content "output").map fun p => mkOutput p.1 p.2
      | none => []
    resources := []
    readme :=
      match env.fileContents (resolvedDir env) "README.md" with
      | some content => content
      | none => "" }

/-- README truncation (source lines 287-288): strictly more than 2000
characters renders as the 2000-character prefix plus the fixed suffix. -/
def truncateReadme (readme : String) : String :=
  if readme.data.length > 2000 then
    String.mk (readme.data.take 2000) ++ "...\n\n(README truncated due to length)"
  else readme

/-- The four report lines appended per input variable (source 271-274). -/
def renderInput (v : VariableDescriptor) : List String :=
  ["### " ++ v.name,
   "- **Description:** " ++ v.description.getD "No description provided",
   "- **Type:** " ++ v.type.getD "any",
   "- **Default:** " ++ v.default.getD "no default" ++ "\n"]

/-- The two report lines appended per output (source 282-283). -/
def renderOutput (o : OutputDescriptor) : List String :=
  ["### " ++ o.name,
   "- **Description:** " ++ o.description.getD "No description provided" ++ "\n"]

/-- The `formatted_output` list of the source (lines 256-290), joined
with newlines (spec name `render`). -/
def renderReport (module_id version : String) (md : ModuleData) : String :=
  pyJoin "\n"
    (["# Module Analysis: " ++ module_id ++ "\n",
      "**Version:** " ++ version,
      "**Registry Link:** https://registry.terraform.io/modules/" ++ module_id ++ "\n",
      "## Inputs (" ++ toString md.inputs.length ++ ")\n"]
      ++ md.inputs.flatMap renderInput
      ++ ["## Outputs (" ++ toString md.outputs.length ++ ")\n"]
      ++ md.outputs.flatMap renderOutput
      ++ ["## README\n\n" ++ truncateReadme md.readme])

/-- The body of `analyze_module` after a successful identifier parse
(source lines 134-300): registry lookup, materialization, extraction and
rendering. -/
def analyzeParsed (module_id : String) (env : Env) (ns nm pv : String) : AnalyzeOutcome :=
  if (env.registry (detailsUrl ns nm pv)).status_code ≠ 200 then
    { response :=
        { content := "Error fetching module details: " ++ (env.registry (detailsUrl ns nm pv)).text
          success := false
          error := some (env.registry (detailsUrl ns nm pv)).text
          module_id := none, version := none, module_data := none }
      ranSubprocess := false
      requestedUrl := some (detailsUrl ns nm pv) }
  else if env.fetch.returncode ≠ 0 then
    { response :=
        { content := "Error downloading module: " ++ env.fetch.stderr
          success := false
          error := some env.fetch.stderr
          module_id := none, version := none, module_data := none }
      ranSubprocess := true
      requestedUrl := some (detailsUrl ns nm pv) }
  else
    { response :=
        { content := renderReport module_id
            ((env.registry (detailsUrl ns nm pv)).versionField.getD "") (analysisModuleData env)
          success := true
          error := none
          module_id := some module_id
          version := some ((env.registry (detailsUrl ns nm pv)).versionField.getD "")
          module_data := some (analysisModuleData env) }
      ranSubprocess := true
      requestedUrl := some (detailsUrl ns nm pv) }

/-- The structured rejection of a malformed identifier (source 124-130). -/
def invalidIdOutcome (module_id : String) : AnalyzeOutcome :=
  { response :=
      { content := "Invalid module ID: " ++ module_id ++ ". Format should be namespace/name/provider."
        success := false
        error := some ("Invalid module ID: " ++ module_id)
        module_id := none, version := none, module_data := none }
    ranSubprocess := false
    requestedUrl := none }

/-- `analyze_module` (source lines 108-310) over an explicit `Env`. -/
def analyze_module (module_id : String) (env : Env) : AnalyzeOutcome :=
  match pySplitStr module_id with
  | [ns, nm, pv] => analyzeParsed module_id env ns nm pv
  | _ => invalidIdOutcome module_id

/-- Specification of the capture list a regex can produce: one entry per
capturing class, each a nonempty run of characters of that class. -/
def capsSpec : List RItem → List (List Char) → Prop
  | [], caps => caps = []
  | .lit _ :: items, caps => capsSpec items caps
  | .plus cls true :: items, caps =>
    ∃ c cs, caps = c :: cs ∧ c ≠ [] ∧ (∀ ch ∈ c, cls ch = true) ∧ capsSpec items cs
  | .plus _ false :: items, caps => capsSpec items caps

/-- The first testable-property input of the spec (§8, second bullet). -/
def sampleSrcC4 : String := "variable \"foo\" \x7b\n description = \"d\"\n\x7d\n"

/-- A variable block with a nested validation sub-block. -/
def nestedSrc : String :=
  "variable \"x\" \x7b\n  validation \x7b\n    condition = true\n  \x7d\n\x7d\n"

/-- A variable block with nothing between its braces. -/
def emptyBlockSrc : String := "variable \"x\" \x7b\x7d\n"

/-- A successful registry details response. -/
def okResp : RegistryResponse :=
  { status_code := 200, text := "\x7b\"version\": \"1.2.0\"\x7d", versionField := some "1.2.0" }

/-- Everything succeeds; the resolved module directory holds no files. -/
def envOk : Env :=
  { registry := fun _ => okResp
    fetch := { returncode := 0, stderr := "" }
    conventionalExists := true
    moduleEntries := []
    fileContents := fun _ _ => none }

/-- The registry answers 404 with a raw error body. -/
def env404 : Env :=
  { registry := fun _ =>
      { status_code := 404, text := "\x7b\"errors\":[\"Not Found\"]\x7d", versionField := none }
    fetch := { returncode := 0, stderr := "" }
    conventionalExists := true
    moduleEntries := []
    fileContents := fun _ _ => none }

/-- The conventional directory is absent and the scan of
`.terraform/modules` finds no name-prefixed entry; no files exist. -/
def envScan : Env :=
  { registry := fun _ => okResp
    fetch := { returncode := 0, stderr := "" }
    conventionalExists := false
    moduleEntries := ["modules.json"]
    fileContents := fun _ _ => none }

/-- A `variables.tf` with one fully annotated variable. -/
def varsTfSample : String :=
  "variable \"region\" \x7b\n  description = \"GCP region\"\n  type = string\n  default = \"us-central1\"\n\x7d\n"

/-- An `outputs.tf` with one annotated output. -/
def outputsTfSample : String :=
  "output \"bucket_name\" \x7b\n  description = \"Bucket name\"\n  value = google_storage_bucket.b.name\n\x7d\n"

/-- Everything succeeds and the module directory holds all three files. -/
def envFull : Env :=
  { registry := fun _ => okResp
    fetch := { returncode := 0, stderr := "" }
    conventionalExists := true
    moduleEntries := []
    fileContents := fun d f =>
      if d = "analyzed_module" then
        if f = "variables.tf" then some varsTfSample
        else if f = "outputs.tf" then some outputsTfSample
        else if f = "README.md" then some "Sample readme." else none
      else none }

/-! ## List and string lemmas -/

theorem data_append (a b : String) : (a ++ b).data = a.data ++ b.data := rfl

theorem strAppendAssoc (a b c : String) : a ++ b ++ c = a ++ (b ++ c) :=
  String.ext (by rw [data_append, data_append, data_append, data_append,
    List.append_assoc])

theorem isPrefixOf_self (l : List Char) : l.isPrefixOf l = true := by
  induction l with
  | nil => rfl
  | cons c t ih => simp [List.isPrefixOf, ih]

theorem isPrefixOf_extend (n h b : List Char) (hp : n.isPrefixOf h = true) :
    n.isPrefixOf (h ++ b) = true := by
  induction n generalizing h with
  | nil => cases h ++ b <;> rfl
  | cons c t ih =>
    cases h with
    | nil => simp [List.isPrefixOf] at hp
    | cons x xs =>
      simp only [List.isPrefixOf, Bool.and_eq_true] at hp ⊢
      exact ⟨hp.1, ih xs hp.2⟩

theorem containsSub_nilNeedle (h : List Char) : containsSub h [] = true := by
  cases h <;> simp [containsSub, List.isPrefixOf]

theorem containsSub_self (n : List Char) : containsSub n n = true := by
  cases n with
  | nil => rfl
  | cons c t => simp [containsSub, isPrefixOf_self]

theorem containsSub_extendRight (a b n : List Char) (hc : containsSub a n = true) :
    containsSub (a ++ b) n = true := by
  induction a with
  | nil =>
    simp [containsSub, List.isEmpty_iff] at hc
    subst hc
    exact containsSub_nilNeedle b
  | cons c t ih =>
    simp only [containsSub, Bool.or_eq_true] at hc
    rcases hc with hc | hc
    · show containsSub (c :: (t ++ b)) n = true
      have := isPrefixOf_extend n (c :: t) b hc
      simp only [containsSub, Bool.or_eq_true]
      exact Or.inl this
    · show containsSub (c :: (t ++ b)) n = true
      simp only [containsSub, Bool.or_eq_true]
      exact Or.inr (ih hc)

theorem containsSub_extendLeft (a b n : List Char) (hc : containsSub b n = true) :
    containsSub (a ++ b) n = true := by
  induction a with
  | nil => exact hc
  | cons c t ih =>
    show containsSub (c :: (t ++ b)) n = true
    simp only [containsSub, Bool.or_eq_true]
    exact Or.inr ih

theorem pyJoin_last (sep : String) (xs : List String) (y : String) (hxs : xs ≠ []) :
    pyJoin sep (xs ++ [y]) = pyJoin sep xs ++ sep ++ y := by
  induction xs with
  | nil => exact absurd rfl hxs
  | cons x t ih =>
    cases t with
    | nil => rfl
    | cons z zs =>
      show pyJoin sep (x :: ((z :: zs) ++ [y])) = _
      have step : pyJoin sep (x :: ((z :: zs) ++ [y]))
          = x ++ sep ++ pyJoin sep ((z :: zs) ++ [y]) := rfl
      rw [step, ih (by simp)]
      show x ++ sep ++ (pyJoin sep (z :: zs) ++ sep ++ y)
          = x ++ sep ++ pyJoin sep (z :: zs) ++ sep ++ y
      rw [strAppendAssoc (x ++ sep ++ pyJoin sep (z :: zs)) sep y,
        strAppendAssoc (x ++ sep) (pyJoin sep (z :: zs)) (sep ++ y),
        strAppendAssoc (pyJoin sep (z :: zs)) sep y]

theorem containsSub_pyJoin (sep : String) (l : List String) (x n : String)
    (hm : x ∈ l) (hc : containsSub x.data n.data = true) :
    containsSub (pyJoin sep l).data n.data = true := by
  induction l with
  | nil => cases hm
  | cons h t ih =>
    cases t with
    | nil =>
      rcases List.mem_singleton.mp hm with rfl
      exact hc
    | cons z zs =>
      rcases List.mem_cons.mp hm with rfl | hm2
      · show containsSub (x ++ sep ++ pyJoin sep (z :: zs)).data n.data = true
        rw [data_append, data_append]
        exact containsSub_extendRight _ _ _ (containsSub_extendRight _ _ _ hc)
      · show containsSub (h ++ sep ++ pyJoin sep (z :: zs)).data n.data = true
        rw [data_append]
        exact containsSub_extendLeft _ _ _ (ih hm2)

/-! ## Matcher specification lemmas -/

theorem takeWhile_length_le (p : Char → Bool) (l : List Char) :
    (l.takeWhile p).length ≤ l.length := by
  induction l with
  | nil => exact Nat.le_refl 0
  | cons c t ih =>
    by_cases hc : p c
    · rw [List.takeWhile_cons_of_pos hc]
      exact Nat.succ_le_succ ih
    · rw [List.takeWhile_cons_of_neg hc]
      exact Nat.zero_le _

theorem mem_take_of_takeWhile (p : Char → Bool) (l : List Char) (j : Nat)
    (hj : j ≤ (l.takeWhile p).length) : ∀ ch ∈ l.take j, p ch = true := by
  induction l generalizing j with
  | nil => intro ch hch; simp at hch
  | cons c t ih =>
    intro ch hch
    by_cases hc : p c
    · rw [List.takeWhile_cons_of_pos hc] at hj
      cases j with
      | zero => simp at hch
      | succ k =>
        simp only [List.take_succ_cons, List.mem_cons] at hch
        rcases hch with rfl | hch
        · exact hc
        · exact ih k (Nat.le_of_succ_le_succ hj) ch hch
    · rw [List.takeWhile_cons_of_neg hc] at hj
      simp only [List.length_nil, Nat.le_zero] at hj
      subst hj
      simp at hch

theorem tryPlus_spec (cont : List Char → Option (List (List Char) × List Char))
    (cap : Bool) (s : List Char) (k : Nat) (caps : List (List Char)) (rest : List Char)
    (h : tryPlus cont cap s k = some (caps, rest)) :
    ∃ j, 1 ≤ j ∧ j ≤ k ∧ ∃ caps2, cont (s.drop j) = some (caps2, rest) ∧
      caps = (if cap then [s.take j] else []) ++ caps2 := by
  induction k with
  | zero => simp [tryPlus] at h
  | succ k ih =>
    rw [tryPlus] at h
    rcases hc : cont (s.drop (k + 1)) with _ | ⟨caps2, rest2⟩
    · rw [hc] at h
      rcases ih h with ⟨j, h1, h2, rest3⟩
      exact ⟨j, h1, Nat.le_succ_of_le h2, rest3⟩
    · rw [hc] at h
      injection h with h
      injection h with hcaps hrest
      subst hrest
      exact ⟨k + 1, Nat.succ_le_succ (Nat.zero_le k), Nat.le_refl _,
        caps2, hc, hcaps.symm⟩

theorem matchSeq_spec (items : List RItem) (s : List Char)
    (caps : List (List Char)) (rest : List Char)
    (h : matchSeq items s = some (caps, rest)) : capsSpec items caps := by
  induction items generalizing s caps rest with
  | nil =>
    rw [matchSeq] at h
    injection h with h
    injection h with hcaps _
    simpa [capsSpec] using hcaps.symm
  | cons item tail ih =>
    cases item with
    | lit p =>
      rw [matchSeq] at h
      by_cases hp : p.isPrefixOf s
      · rw [if_pos hp] at h
        exact ih _ _ _ h
      · rw [if_neg hp] at h
        cases h
    | plus cls cap =>
      rw [matchSeq] at h
      rcases tryPlus_spec _ _ _ _ _ _ h with ⟨j, hj1, hj2, caps2, hcont, hcaps⟩
      have htail := ih _ _ _ hcont
      cases cap with
      | false =>
        simp only [if_neg Bool.false_ne_true, List.nil_append] at hcaps
        subst hcaps
        exact htail
      | true =>
        simp only [if_pos rfl, List.singleton_append] at hcaps
        subst hcaps
        refine ⟨s.take j, caps2, rfl, ?_, ?_, htail⟩
        · have hlen : 1 ≤ (s.take j).length := by
            rw [List.length_take]
            have hsl : 1 ≤ s.length :=
              Nat.le_trans hj1 (Nat.le_trans hj2 (takeWhile_length_le cls s))
            exact Nat.le_min.mpr ⟨hj1, hsl⟩
          intro heq
          rw [heq] at hlen
          simp at hlen
        · exact mem_take_of_takeWhile cls s j hj2

theorem findAllAux_spec (items : List RItem) (fuel : Nat) (s : List Char)
    (caps : List (List Char)) (hm : caps ∈ findAllAux items fuel s) :
    capsSpec items caps := by
  induction fuel generalizing s with
  | zero => simp [findAllAux] at hm
  | succ fuel ih =>
    cases s with
    | nil => simp [findAllAux] at hm
    | cons c rest =>
      rw [findAllAux] at hm
      split at hm
      next caps2 rem hms =>
        by_cases hlt : rem.length < (c :: rest).length
        · rw [if_pos hlt] at hm
          rcases List.mem_cons.mp hm with rfl | hm2
          · exact matchSeq_spec _ _ _ _ hms
          · exact ih _ hm2
        · rw [if_neg hlt] at hm
          rcases List.mem_cons.mp hm with rfl | hm2
          · exact matchSeq_spec _ _ _ _ hms
          · exact ih _ hm2
      next hms => exact ih _ hm

theorem searchAux_spec (items : List RItem) (fuel : Nat) (s : List Char)
    (caps : List (List Char)) (hm : searchAux items fuel s = some caps) :
    capsSpec items caps := by
  induction fuel generalizing s with
  | zero => simp [searchAux] at hm
  | succ fuel ih =>
    cases s with
    | nil =>
      rw [searchAux] at hm
      split at hm
      next caps2 rem hms =>
        injection hm with hm
        subst hm
        exact matchSeq_spec _ _ _ _ hms
      next hms => cases hm
    | cons c rest =>
      rw [searchAux] at hm
      split at hm
      next caps2 rem hms =>
        injection hm with hm
        subst hm
        exact matchSeq_spec _ _ _ _ hms
      next hms => exact ih _ hm

theorem reSearch_spec (items : List RItem) (s : List Char)
    (caps : List (List Char)) (hm : reSearch items s = some caps) :
    capsSpec items caps :=
  searchAux_spec items (s.length + 1) s caps hm

/-! ## dropWhile and pyStrip lemmas -/

theorem dropWhile_idem (p : Char → Bool) (l : List Char) :
    (l.dropWhile p).dropWhile p = l.dropWhile p := by
  induction l with
  | nil => rfl
  | cons c t ih =>
    by_cases hc : p c
    · rw [List.dropWhile_cons_of_pos hc, ih]
    · rw [List.dropWhile_cons_of_neg hc, List.dropWhile_cons_of_neg hc]

theorem head_dropWhile (p : Char → Bool) (l : List Char) (c : Char)
    (h : (l.dropWhile p).head? = some c) : p c = false := by
  induction l with
  | nil => cases h
  | cons x t ih =>
    by_cases hx : p x
    · rw [List.dropWhile_cons_of_pos hx] at h
      exact ih h
    · rw [List.dropWhile_cons_of_neg hx] at h
      injection h with h
      subst h
      exact Bool.of_not_eq_true hx

theorem dropWhile_eq_self_of_head (p : Char → Bool) (l : List Char)
    (h : ∀ c, l.head? = some c → p c = false) : l.dropWhile p = l := by
  cases l with
  | nil => rfl
  | cons c t =>
    have := h c rfl
    rw [List.dropWhile_cons_of_neg (by simp [this])]

theorem mem_dropWhile (p : Char → Bool) (l : List Char) (ch : Char)
    (h : ch ∈ l.dropWhile p) : ch ∈ l := by
  induction l with
  | nil => cases h
  | cons c t ih =>
    by_cases hc : p c
    · rw [List.dropWhile_cons_of_pos hc] at h
      exact List.mem_cons_of_mem c (ih h)
    · rw [List.dropWhile_cons_of_neg hc] at h
      exact h

theorem dropWhile_decomp (p : Char → Bool) (l : List Char) :
    ∃ t, l = t ++ l.dropWhile p := by
  induction l with
  | nil => exact ⟨[], rfl⟩
  | cons c t ih =>
    by_cases hc : p c
    · rw [List.dropWhile_cons_of_pos hc]
      rcases ih with ⟨t2, ht2⟩
      exact ⟨c :: t2, by rw [List.cons_append, ← ht2]⟩
    · rw [List.dropWhile_cons_of_neg hc]
      exact ⟨[], rfl⟩

theorem head_append_left (a b : List Char) (ha : a ≠ []) :
    (a ++ b).head? = a.head? := by
  cases a with
  | nil => exact absurd rfl ha
  | cons c t => rfl

theorem mem_pyStrip (l : List Char) (ch : Char) (h : ch ∈ pyStrip l) : ch ∈ l := by
  unfold pyStrip at h
  have h1 := mem_dropWhile _ _ _ h
  rw [List.mem_reverse] at h1
  have h2 := mem_dropWhile _ _ _ h1
  rw [List.mem_reverse] at h2
  exact h2

theorem pyStrip_leftTrimmed (l : List Char) :
    (pyStrip l).dropWhile isPySpace = pyStrip l := by
  unfold pyStrip
  exact dropWhile_idem _ _

theorem pyStrip_rightTrimmed (l : List Char) :
    (pyStrip l).reverse.dropWhile isPySpace = (pyStrip l).reverse := by
  unfold pyStrip
  set Y := l.reverse.dropWhile isPySpace with hY
  set r := Y.reverse.dropWhile isPySpace with hr
  rcases dropWhile_decomp isPySpace Y.reverse with ⟨t, ht⟩
  have hYr : Y = r.reverse ++ t.reverse := by
    have := congrArg List.reverse ht
    rw [List.reverse_reverse, List.reverse_append] at this
    exact this
  cases hrc : r.reverse with
  | nil => simp [hrc]
  | cons c cs =>
    rw [hrc] at hYr
    apply dropWhile_eq_self_of_head
    intro c2 hc2
    have hYhead : Y.head? = some c2 := by
      rw [hYr, head_append_left _ _ (by simp)]
      exact hc2
    exact head_dropWhile isPySpace l.reverse c2 (by rw [← hY]; exact hYhead)

/-! ## Extraction characterization lemmas -/

theorem extract_blocks_mem (source keyword n b : String)
    (hm : (n, b) ∈ extract_blocks source keyword) :
    [n.data, b.data] ∈ findAll (blockRegex keyword) source.data := by
  unfold extract_blocks at hm
  rcases List.mem_filterMap.mp hm with ⟨caps, hc, hf⟩
  rcases caps with _ | ⟨x, _ | ⟨y, _ | ⟨z, zs⟩⟩⟩ <;> simp at hf
  rcases hf with ⟨hfx, hfy⟩
  have hx : n.data = x := by rw [← hfx]
  have hy : b.data = y := by rw [← hfy]
  rw [hx, hy]
  exact hc

theorem extract_blocks_bodyFacts (source keyword n b : String)
    (hm : (n, b) ∈ extract_blocks source keyword) :
    b.data ≠ [] ∧ ∀ ch ∈ b.data, ch ≠ '}' := by
  have h := findAllAux_spec _ _ _ _ (extract_blocks_mem source keyword n b hm)
  simp only [blockRegex, capsSpec] at h
  obtain ⟨c, cs, hceq, -, -, c2, cs2, hcs, hc2ne, hc2all, -⟩ := h
  injection hceq with h1 h2
  subst h2
  injection hcs with h3 h4
  constructor
  · rw [h3]
    exact hc2ne
  · intro ch hch
    have := hc2all ch (h3 ▸ hch)
    simpa using this

theorem extract_attribute_lineFacts (body attr v : String)
    (hattr : attr ≠ "description") (h : extract_attribute body attr = some v) :
    ∃ c : List Char, v.data = pyStrip c ∧ ∀ ch ∈ c, ch ≠ '\n' := by
  unfold extract_attribute at h
  rw [if_neg hattr] at h
  rcases hs : reSearch (lineRegex attr) body.data with _ | caps
  · rw [hs] at h
    cases h
  · rw [hs] at h
    have hspec := reSearch_spec _ _ _ hs
    simp only [lineRegex, capsSpec] at hspec
    obtain ⟨c, cs, hceq, -, hcall, hnil⟩ := hspec
    subst hceq
    subst hnil
    simp only [Option.some.injEq] at h
    refine ⟨c, by rw [← h], ?_⟩
    intro ch hch
    simpa using hcall ch hch

theorem containsSub_ofIsPrefix (h n : List Char) (hp : n.isPrefixOf h = true) :
    containsSub h n = true := by
  cases h with
  | nil =>
    cases n with
    | nil => rfl
    | cons c t => simp [List.isPrefixOf] at hp
  | cons c t =>
    simp only [containsSub, Bool.or_eq_true]
    exact Or.inl hp

theorem strContains_left (x y : String) : strContains (x ++ y) x = true := by
  unfold strContains
  rw [data_append]
  exact containsSub_extendRight _ _ _ (containsSub_self _)

theorem strContains_right (x y : String) : strContains (x ++ y) y = true := by
  unfold strContains
  rw [data_append]
  exact containsSub_extendLeft _ _ _ (containsSub_self _)

theorem renderReport_inputsHdr (mid ver : String) (md : ModuleData) :
    strContains (renderReport mid ver md)
      ("## Inputs (" ++ toString md.inputs.length ++ ")") = true := by
  unfold renderReport strContains
  apply containsSub_pyJoin "\n" _ ("## Inputs (" ++ toString md.inputs.length ++ ")\n")
  · simp
  · have h1 : "## Inputs (" ++ toString md.inputs.length ++ ")\n"
        = ("## Inputs (" ++ toString md.inputs.length ++ ")") ++ "\n" := by
      rw [strAppendAssoc ("## Inputs (" ++ toString md.inputs.length) ")" "\n"]
      rfl
    rw [h1, data_append]
    exact containsSub_extendRight _ _ _ (containsSub_self _)

theorem renderReport_outputsHdr (mid ver : String) (md : ModuleData) :
    strContains (renderReport mid ver md)
      ("## Outputs (" ++ toString md.outputs.length ++ ")") = true := by
  unfold renderReport strContains
  apply containsSub_pyJoin "\n" _ ("## Outputs (" ++ toString md.outputs.length ++ ")\n")
  · simp
  · have h1 : "## Outputs (" ++ toString md.outputs.length ++ ")\n"
        = ("## Outputs (" ++ toString md.outputs.length ++ ")") ++ "\n" := by
      rw [strAppendAssoc ("## Outputs (" ++ toString md.outputs.length) ")" "\n"]
      rfl
    rw [h1, data_append]
    exact containsSub_extendRight _ _ _ (containsSub_self _)

theorem analyze_module_parsed (id : String) (env : Env) (a b c : String)
    (hsplit : pySplitStr id = [a, b, c]) :
    analyze_module id env = analyzeParsed id env a b c := by
  unfold analyze_module
  rw [hsplit]

theorem analyze_module_reject (id : String) (env : Env)
    (hsplit : (pySplitStr id).length ≠ 3) :
    analyze_module id env = invalidIdOutcome id := by
  unfold analyze_module
  rcases hp : pySplitStr id with _ | ⟨a, _ | ⟨b, _ | ⟨c, _ | ⟨d, t⟩⟩⟩⟩ <;>
    first
      | rfl
      | (exact absurd (by rw [hp]; rfl) hsplit)

/-! ## Claim theorems -/

/-- C1 counterexample: the source only checks the segment count, not
segment non-emptiness.  The identifier `a//b` splits into three segments
one of which is empty, so per the claim it must be rejected with
`success = false`; the code accepts it and (under an otherwise successful
environment) reports `success = true`. -/
theorem claim_C1_counterexample :
    pySplitStr "a//b" = ["a", "", "b"] ∧
    (analyze_module "a//b" envOk).response.success = true := by
  constructor
  · decide
  · decide

/-- C1 (amended): an identifier is accepted if and only if splitting it on
the slash yields exactly 3 segments (segments may be empty); a 3-segment
split `[a, b, c]` parses to exactly namespace `a`, name `b`, provider `c`
(observable through the requested registry URL), and any other segment
count is rejected with a structured InvalidIdentifier failure
(`success = false`, no registry request), never a raised exception. -/
theorem claim_C1_amended (id : String) (env : Env) :
    ((pySplitStr id).length ≠ 3 →
      (analyze_module id env).response.success = false ∧
      (analyze_module id env).response.error = some ("Invalid module ID: " ++ id) ∧
      (analyze_module id env).requestedUrl = none) ∧
    (∀ a b c, pySplitStr id = [a, b, c] →
      (analyze_module id env).requestedUrl = some (detailsUrl a b c)) := by
  constructor
  · intro h
    rw [analyze_module_reject id env h]
    exact ⟨rfl, rfl, rfl⟩
  · intro a b c hs
    rw [analyze_module_parsed id env a b c hs]
    unfold analyzeParsed
    by_cases h200 : (env.registry (detailsUrl a b c)).status_code ≠ 200
    · rw [if_pos h200]
    · rw [if_neg h200]
      by_cases hrc : env.fetch.returncode ≠ 0
      · rw [if_pos hrc]
      · rw [if_neg hrc]

/-- C1 witness: a slash-free identifier is rejected without a registry
request, and a three-segment identifier leads to the parsed URL. -/
theorem claim_C1_amended_witness :
    ((analyze_module "nonsense" envOk).response.success = false ∧
     (analyze_module "nonsense" envOk).response.error = some ("Invalid module ID: " ++ "nonsense") ∧
     (analyze_module "nonsense" envOk).requestedUrl = none) ∧
    (analyze_module "a/b/c" envOk).requestedUrl = some (detailsUrl "a" "b" "c") :=
  ⟨(claim_C1_amended "nonsense" envOk).1 (by decide),
   (claim_C1_amended "a/b/c" envOk).2 "a" "b" "c" (by decide)⟩

/-- C2: whenever the registry details endpoint answers with a non-200
status, the result has `success = false`, its message contains the raw
response body verbatim, and the dependency-materialization subprocess is
never invoked. -/
theorem claim_C2 (id : String) (env : Env) (a b c : String)
    (hsplit : pySplitStr id = [a, b, c])
    (h200 : (env.registry (detailsUrl a b c)).status_code ≠ 200) :
    (analyze_module id env).response.success = false ∧
    strContains (analyze_module id env).response.content
      (env.registry (detailsUrl a b c)).text = true ∧
    (analyze_module id env).ranSubprocess = false := by
  rw [analyze_module_parsed id env a b c hsplit]
  unfold analyzeParsed
  rw [if_pos h200]
  refine ⟨rfl, ?_, rfl⟩
  exact strContains_right "Error fetching module details: "
    (env.registry (detailsUrl a b c)).text

/-- C2 witness: a 404 response with a concrete raw body. -/
theorem claim_C2_witness :
    (analyze_module "hashicorp/consul/aws" env404).response.success = false ∧
    strContains (analyze_module "hashicorp/consul/aws" env404).response.content
      (env404.registry (detailsUrl "hashicorp" "consul" "aws")).text = true ∧
    (analyze_module "hashicorp/consul/aws" env404).ranSubprocess = false :=
  claim_C2 "hashicorp/consul/aws" env404 "hashicorp" "consul" "aws"
    (by decide) (by decide)

/-- C3: once the identifier parses, the registry answers 200 and the
materialization subprocess exits 0, the analysis always succeeds; when the
conventional module directory is absent and the prefix scan finds no
entry, directory resolution falls back to the (absent) conventional name,
and with all three files missing the result carries an effectively-empty
ModuleData — missing files are never escalated to a fatal error. -/
theorem claim_C3 (id : String) (env : Env) (a b c : String)
    (hsplit : pySplitStr id = [a, b, c])
    (h200 : (env.registry (detailsUrl a b c)).status_code = 200)
    (hrc : env.fetch.returncode = 0) :
    (analyze_module id env).response.success = true ∧
    (env.conventionalExists = false →
      env.moduleEntries.find? (fun d => "analyzed_module".data.isPrefixOf d.data) = none →
      resolvedDir env = "analyzed_module") ∧
    (env.fileContents (resolvedDir env) "variables.tf" = none →
      env.fileContents (resolvedDir env) "outputs.tf" = none →
      env.fileContents (resolvedDir env) "README.md" = none →
      (analyze_module id env).response.module_data =
        some { inputs := [], outputs := [], resources := [], readme := "" }) := by
  rw [analyze_module_parsed id env a b c hsplit]
  unfold analyzeParsed
  rw [if_neg (by simp [h200]), if_neg (by simp [hrc])]
  refine ⟨rfl, ?_, ?_⟩
  · intro hconv hfind
    unfold resolvedDir
    rw [hconv, hfind]
    rfl
  · intro hv ho hr
    show some (analysisModuleData env) = _
    unfold analysisModuleData
    rw [hv, ho, hr]

/-- C3 witness: scan finds no prefixed entry, no files exist, analysis
still succeeds with empty module data. -/
theorem claim_C3_witness :
    (analyze_module "a/b/c" envScan).response.success = true ∧
    resolvedDir envScan = "analyzed_module" ∧
    (analyze_module "a/b/c" envScan).response.module_data =
      some { inputs := [], outputs := [], resources := [], readme := "" } :=
  have h := claim_C3 "a/b/c" envScan "a" "b" "c" (by decide) (by decide) (by decide)
  ⟨h.1, h.2.1 (by decide) (by decide), h.2.2 (by decide) (by decide) (by decide)⟩

/-- C4 counterexample: on the spec's input the extracted body is
`"\n description = \"d\"\n"` — the capture starts right after the opening
brace, so it includes the newline that follows the brace; the claim's
expected body `" description = \"d\"\n"` (starting at the space) is wrong. -/
theorem claim_C4_counterexample :
    extract_blocks sampleSrcC4 "variable" ≠ [("foo", " description = \"d\"\n")] := by
  decide

/-- C4 (amended): on the input `variable "foo" \x7b\n description = "d"\n\x7d\n`
with keyword `variable`, block extraction returns exactly one block, named
`foo`, whose body is exactly `"\n description = \"d\"\n"` (the raw text
between the opening brace and the first closing brace, leading newline
included). -/
theorem claim_C4_amended :
    extract_blocks sampleSrcC4 "variable" = [("foo", "\n description = \"d\"\n")] := by
  decide

/-- C5: the rendered report ends with the README section; when the README
is longer than 2000 characters that section is exactly the 2000-character
prefix followed by the exact suffix `"...\n\n(README truncated due to
length)"`, and when the README has at most 2000 characters it appears
verbatim with no suffix. -/
theorem claim_C5 (id v : String) (md : ModuleData) :
    ∃ pre, renderReport id v md =
      pre ++ "## README\n\n" ++
        (if 2000 < md.readme.data.length then
          String.mk (md.readme.data.take 2000) ++ "...\n\n(README truncated due to length)"
         else md.readme) := by
  unfold renderReport
  rw [pyJoin_last "\n" _ _ (by simp)]
  exact ⟨_, (strAppendAssoc _ "## README\n\n" _).symm⟩

/-- C6: extracted block bodies never contain a closing brace — the capture
stops at the first `\x7d` after the opening brace (single-level,
non-recursive matching) — and on a variable block with a nested
`validation` sub-block the body is truncated at that first closing brace,
not captured in full. -/
theorem claim_C6 :
    (∀ source keyword n b, (n, b) ∈ extract_blocks source keyword →
      ∀ ch ∈ b.data, ch ≠ '}') ∧
    extract_blocks nestedSrc "variable" =
      [("x", "\n  validation \x7b\n    condition = true\n  ")] := by
  constructor
  · intro source keyword n b hm
    exact (extract_blocks_bodyFacts source keyword n b hm).2
  · decide

/-- C6 witness: the truncated nested-block body contains the nested
opening brace, which the theorem certifies is not a closing brace. -/
theorem claim_C6_witness : ('{' : Char) ≠ '}' :=
  claim_C6.1 nestedSrc "variable" "x" "\n  validation \x7b\n    condition = true\n  "
    (by decide) '{' (by decide)

/-- C7 counterexample: `\s+` in the attribute regexes also matches
newlines, so an assignment whose value starts on the following line — not
a single-line assignment — still yields a value instead of staying
absent: on the body `"default =\n[1,2,3]\n"` the extraction returns
`some "[1,2,3]"`, not `none` as the claim requires. -/
theorem claim_C7_counterexample :
    extract_attribute "default =\n[1,2,3]\n" "default" = some "[1,2,3]" ∧
    extract_attribute "default =\n[1,2,3]\n" "default" ≠ none := by
  constructor
  · decide
  · decide

/-- C7 (amended): `description` extraction returns the double-quoted
literal content (nonempty, no escaped-quote handling); `type`, `default`
and `value` extraction return the trimmed remainder of the line on which
the value starts, verbatim (not quote-stripped, not type-parsed, so
`default = [1,2,3]` yields the literal `[1,2,3]`) — where the whitespace
around `=` may include newlines, so a value beginning on a following line
is also matched; every returned non-description value is single-line and
trimmed; and when the pattern does not occur at all the result is absent
and no exception is thrown. -/
theorem claim_C7_amended :
    (∀ body attr v, attr ≠ "description" → extract_attribute body attr = some v →
      '\n' ∉ v.data ∧ v.data.dropWhile isPySpace = v.data ∧
        v.data.reverse.dropWhile isPySpace = v.data.reverse) ∧
    extract_attribute " description = \"hello world\"\n" "description" = some "hello world" ∧
    extract_attribute " type = list(string)\n" "type" = some "list(string)" ∧
    extract_attribute " default = [1,2,3]\n" "default" = some "[1,2,3]" ∧
    extract_attribute " value   =   foo.bar  \n" "value" = some "foo.bar" ∧
    extract_attribute " type is list\n" "type" = none ∧
    extract_attribute " descr = \"x\"\n" "description" = none := by
  refine ⟨?_, by decide, by decide, by decide, by decide, by decide, by decide⟩
  intro body attr v hattr h
  obtain ⟨c, hvc, hcall⟩ := extract_attribute_lineFacts body attr v hattr h
  refine ⟨?_, ?_, ?_⟩
  · intro hmem
    rw [hvc] at hmem
    exact hcall _ (mem_pyStrip c _ hmem) rfl
  · rw [hvc]
    exact pyStrip_leftTrimmed c
  · rw [hvc]
    exact pyStrip_rightTrimmed c

/-- C7 witness: the trimmed single-line guarantee at a concrete value. -/
theorem claim_C7_amended_witness :
    '\n' ∉ ("foo.bar" : String).data ∧
    ("foo.bar" : String).data.dropWhile isPySpace = ("foo.bar" : String).data ∧
    ("foo.bar" : String).data.reverse.dropWhile isPySpace
      = ("foo.bar" : String).data.reverse :=
  claim_C7_amended.1 " value   =   foo.bar  \n" "value" "foo.bar"
    (by decide) (by decide)

/-- C8: on the success path the rendered content is the deterministic
report: the `## Inputs (n)` header counts exactly the extracted variable
blocks (in extraction order, via the map over `extract_blocks`), the
`## Outputs (m)` header counts the extracted output blocks, both headers
occur in the content, and the report layout is the fixed sequence of
sections with the per-input defaults `No description provided`, `any`,
`no default` and the per-output default `No description provided`. -/
theorem claim_C8 (id : String) (env : Env) (a b c : String)
    (hsplit : pySplitStr id = [a, b, c])
    (h200 : (env.registry (detailsUrl a b c)).status_code = 200)
    (hrc : env.fetch.returncode = 0) :
    (analyze_module id env).response.content =
      renderReport id ((env.registry (detailsUrl a b c)).versionField.getD "")
        (analysisModuleData env) ∧
    (∀ vc, env.fileContents (resolvedDir env) "variables.tf" = some vc →
      (analysisModuleData env).inputs =
        (extract_blocks vc "variable").map (fun p => mkVariable p.1 p.2)) ∧
    (∀ oc, env.fileContents (resolvedDir env) "outputs.tf" = some oc →
      (analysisModuleData env).outputs =
        (extract_blocks oc "output").map (fun p => mkOutput p.1 p.2)) ∧
    strContains (analyze_module id env).response.content
      ("## Inputs (" ++ toString (analysisModuleData env).inputs.length ++ ")") = true ∧
    strContains (analyze_module id env).response.content
      ("## Outputs (" ++ toString (analysisModuleData env).outputs.length ++ ")") = true ∧
    (∀ mid ver md, renderReport mid ver md = pyJoin "\n"
      (["# Module Analysis: " ++ mid ++ "\n",
        "**Version:** " ++ ver,
        "**Registry Link:** https://registry.terraform.io/modules/" ++ mid ++ "\n",
        "## Inputs (" ++ toString md.inputs.length ++ ")\n"]
        ++ md.inputs.flatMap (fun iv =>
            ["### " ++ iv.name,
             "- **Description:** " ++ iv.description.getD "No description provided",
             "- **Type:** " ++ iv.type.getD "any",
             "- **Default:** " ++ iv.default.getD "no default" ++ "\n"])
        ++ ["## Outputs (" ++ toString md.outputs.length ++ ")\n"]
        ++ md.outputs.flatMap (fun ov =>
            ["### " ++ ov.name,
             "- **Description:** " ++ ov.description.getD "No description provided" ++ "\n"])
        ++ ["## README\n\n" ++ truncateReadme md.readme])) := by
  rw [analyze_module_parsed id env a b c hsplit]
  unfold analyzeParsed
  rw [if_neg (by simp [h200]), if_neg (by simp [hrc])]
  refine ⟨rfl, ?_, ?_, ?_, ?_, fun mid ver md => rfl⟩
  · intro vc hvc
    unfold analysisModuleData
    rw [hvc]
  · intro oc hoc
    unfold analysisModuleData
    rw [hoc]
  · exact renderReport_inputsHdr id _ _
  · exact renderReport_outputsHdr id _ _

/-- C8 witness: a full environment with one variable and one output. -/
theorem claim_C8_witness :
    (analyze_module "a/b/c" envFull).response.content =
      renderReport "a/b/c" ((envFull.registry (detailsUrl "a" "b" "c")).versionField.getD "")
        (analysisModuleData envFull) ∧
    (analysisModuleData envFull).inputs =
      (extract_blocks varsTfSample "variable").map (fun p => mkVariable p.1 p.2) ∧
    strContains (analyze_module "a/b/c" envFull).response.content
      ("## Inputs (" ++ toString (analysisModuleData envFull).inputs.length ++ ")") = true :=
  have h := claim_C8 "a/b/c" envFull "a" "b" "c" (by decide) (by decide) (by decide)
  ⟨h.1, h.2.1 varsTfSample (by decide), h.2.2.2.1⟩

/-- C9: every successful analysis carries a `module_data` record whose
`resources` field is the empty list — it is created empty and no
extraction stage ever populates it. -/
theorem claim_C9 (id : String) (env : Env)
    (h : (analyze_module id env).response.success = true) :
    (analyze_module id env).response.module_data = some (analysisModuleData env) ∧
    (analysisModuleData env).resources = [] := by
  refine ⟨?_, rfl⟩
  rcases hp : pySplitStr id with _ | ⟨a, _ | ⟨b, _ | ⟨c, _ | ⟨d, t⟩⟩⟩⟩
  · rw [analyze_module_reject id env (by rw [hp]; simp)] at h
    cases h
  · rw [analyze_module_reject id env (by rw [hp]; simp)] at h
    cases h
  · rw [analyze_module_reject id env (by rw [hp]; simp)] at h
    cases h
  · rw [analyze_module_parsed id env a b c hp] at h ⊢
    unfold analyzeParsed at h ⊢
    by_cases h200 : (env.registry (detailsUrl a b c)).status_code ≠ 200
    · rw [if_pos h200] at h
      cases h
    · rw [if_neg h200] at h ⊢
      by_cases hrc : env.fetch.returncode ≠ 0
      · rw [if_pos hrc] at h
        cases h
      · rw [if_neg hrc]
  · rw [analyze_module_reject id env (by rw [hp]; simp)] at h
    cases h

/-- C9 witness: a successful analysis with empty resources. -/
theorem claim_C9_witness :
    (analyze_module "a/b/c" envOk).response.module_data = some (analysisModuleData envOk) ∧
    (analysisModuleData envOk).resources = [] :=
  claim_C9 "a/b/c" envOk (by decide)

/-- C10: block matching requires at least one character between the
braces — every extracted body is a nonempty string — so a variable or
output block with nothing between its braces is not extracted at all and
contributes no entry. -/
theorem claim_C10 :
    (∀ source keyword n b, (n, b) ∈ extract_blocks source keyword → b ≠ "") ∧
    extract_blocks emptyBlockSrc "variable" = [] := by
  constructor
  · intro source keyword n b hm heq
    apply (extract_blocks_bodyFacts source keyword n b hm).1
    rw [heq]
  · decide

/-- C10 witness: a concretely extracted body is certified nonempty. -/
theorem claim_C10_witness : ("\n description = \"d\"\n" : String) ≠ "" :=
  claim_C10.1 sampleSrcC4 "variable" "foo" "\n description = \"d\"\n" (by decide)

end TFReg
